import Mathlib

/-
Verification development for the leptos_color repository.

Shallow embedding conventions:
  * Rust f32/f64 arithmetic is modelled over ℚ; all concrete inputs used in
    witnesses and counterexamples are exactly representable in the floating
    formats, so no rounding discrepancy is introduced at those points.
  * Rust u8/u16 values are modelled as Fin 256 / bounded ℕ; `as u8` / `as u16`
    casts from floats truncate toward zero and saturate, which is modelled
    explicitly.
  * Fallible operations return Option; the `todo!()` macro (an aborting
    placeholder) is modelled as a dedicated `panicked` outcome.
  * The external csscolorparser collaborator (the `Color` value type and its
    conversions/parser) is modelled from its published source where the
    picker's behaviour depends on it; the parser model is restricted to the
    syntactic families relevant here (hex with or without '#', a named-colour
    table fragment, and integer/decimal rgb()/rgba() forms).
-/

namespace LeptosColor

/-- Bounding client rectangle of the bound surface element, as returned by
`get_bounding_client_rect` in `use_position.rs`. -/
structure Rect where
  left : ℚ
  top : ℚ
  width : ℚ
  height : ℚ
deriving Repr, DecidableEq

/-- Pointer and touch events as examined by `get_position` in
`use_position.rs`: a mouse event carries client coordinates (the source casts
the integer `client_x`/`client_y` to f64), a touch event carries its list of
touch points (`touches()`), each with client coordinates, and any other event
kind matches neither `dyn_ref` branch. -/
inductive PEvent where
  | mouse (clientX clientY : ℚ)
  | touch (touches : List (ℚ × ℚ))
  | other
deriving Repr, DecidableEq

/-- Rust `f64::min` on the (non-NaN) values occurring here: the smaller
argument. -/
def rustMin (a b : ℚ) : ℚ := if a ≤ b then a else b

/-- Rust `f64::max` on the (non-NaN) values occurring here: the larger
argument. -/
def rustMax (a b : ℚ) : ℚ := if a ≤ b then b else a

/-- Shallow embedding of the closure `limit` in `use_position.rs`:
`|value: f64| value.min(1.0).max(0.0)`. -/
def limit (value : ℚ) : ℚ := rustMax (rustMin value 1) 0

theorem rustMin_le_left (a b : ℚ) : rustMin a b ≤ a := by
  unfold rustMin
  split
  · exact le_rfl
  · next h => exact le_of_not_le h

theorem rustMin_le_right (a b : ℚ) : rustMin a b ≤ b := by
  unfold rustMin
  split
  · next h => exact h
  · exact le_rfl

theorem le_rustMax_right (a b : ℚ) : b ≤ rustMax a b := by
  unfold rustMax
  split
  · exact le_rfl
  · next h => exact le_of_not_le h

theorem rustMax_le (a b c : ℚ) (h1 : a ≤ c) (h2 : b ≤ c) : rustMax a b ≤ c := by
  unfold rustMax; split <;> assumption

theorem limit_bounds (v : ℚ) : 0 ≤ limit v ∧ limit v ≤ 1 :=
  ⟨le_rustMax_right _ _, rustMax_le _ _ _ (rustMin_le_right _ _) zero_le_one⟩

/-- Client coordinates extracted by `get_position` in `use_position.rs`:
a mouse event yields `(client_x, client_y)`, a touch event yields its first
touch point (`touches().item(0)`) or nothing when the touch list is empty,
and any other event yields nothing. -/
def clientCoords : PEvent → Option (ℚ × ℚ)
  | .mouse x y => some (x, y)
  | .touch ts => ts.head?
  | .other => none

/-- Shallow embedding of `get_position` in `use_position.rs`. The `surface`
argument is `none` when `ref_div.get_untracked()` returns `None` (the surface
element is unbound or not yet mounted); otherwise it carries the element's
bounding rectangle. -/
def get_position (surface : Option Rect) (e : PEvent) : Option (ℚ × ℚ) :=
  match surface with
  | none => none
  | some rect =>
    match clientCoords e with
    | none => none
    | some (cx, cy) =>
      some (limit ((cx - rect.left) / rect.width),
            limit ((cy - rect.top) / rect.height))

/-- Position emitted to `on_move` by `handle_move` in `use_position.rs`
(`prevent_default` on mouse events is a host side effect with no bearing on
the emitted value): a position is emitted exactly when `get_position` yields
one. -/
def handle_move (surface : Option Rect) (e : PEvent) : Option (ℚ × ℚ) :=
  get_position surface e

/-- Position emitted to `on_move` by `handle_start` in `use_position.rs`
(besides setting the `dragging` signal): a position is emitted exactly when
`get_position` yields one. -/
def handle_start_emit (surface : Option Rect) (e : PEvent) : Option (ℚ × ℚ) :=
  get_position surface e

/-- Kinds of document-level listeners installed by the drag effect in
`use_position.rs`. -/
inductive ListenerKind where
  | mousemoveL
  | mouseupL
  | touchmoveL
  | touchendL
deriving Repr, DecidableEq

/-- Per-tracker drag state: the `dragging` signal together with the set of
document-level listeners currently installed by the reactive effect in
`use_position.rs`. -/
structure DragState where
  dragging : Bool
  listeners : List ListenerKind
deriving Repr, DecidableEq

/-- One run of the `create_effect` block in `use_position.rs`: listeners
installed by the previous run are cleaned up when the effect re-runs, and a
fresh set of the four document-level listeners (mousemove, mouseup,
touchmove, touchend) is installed exactly when `dragging` reads true. -/
def runDragEffect (s : DragState) : DragState :=
  { s with listeners :=
      if s.dragging then
        [ListenerKind.mousemoveL, ListenerKind.mouseupL,
         ListenerKind.touchmoveL, ListenerKind.touchendL]
      else [] }

/-- Shallow embedding of `handle_end` in `use_position.rs`: its body only
sets the `dragging` signal to false. -/
def handle_end (s : DragState) : DragState := { s with dragging := false }

/-- Full end-of-drag handling: `handle_end` followed by the reactive re-run
of the drag effect triggered by the signal write. -/
def endDrag (s : DragState) : DragState := runDragEffect (handle_end s)

/-- Full start-of-drag handling on the state: `handle_start` sets `dragging`
to true and the drag effect re-runs, installing the listener set. -/
def startDrag (s : DragState) : DragState :=
  runDragEffect { s with dragging := true }

/-- C2: whenever `use_position` emits a position to the `on_move` callback,
the position is obtained from the event's client coordinates by
`clamp((client - rect.origin) / rect.extent, 0, 1)` in each axis, and both
coordinates lie in [0,1]. -/
theorem c2_emitted_position_clamped (surface : Option Rect) (e : PEvent)
    (p : ℚ × ℚ) (h : handle_move surface e = some p) :
    (0 ≤ p.1 ∧ p.1 ≤ 1 ∧ 0 ≤ p.2 ∧ p.2 ≤ 1) ∧
    ∃ rect cx cy, surface = some rect ∧ clientCoords e = some (cx, cy) ∧
      p.1 = rustMax (rustMin ((cx - rect.left) / rect.width) 1) 0 ∧
      p.2 = rustMax (rustMin ((cy - rect.top) / rect.height) 1) 0 := by
  match surface with
  | none => simp [handle_move, get_position] at h
  | some rect =>
    match hc : clientCoords e with
    | none => simp [handle_move, get_position, hc] at h
    | some (cx, cy) =>
      simp [handle_move, get_position, hc] at h
      refine ⟨?_, rect, cx, cy, rfl, rfl, ?_, ?_⟩
      · rw [← h]
        exact ⟨(limit_bounds _).1, (limit_bounds _).2,
          (limit_bounds _).1, (limit_bounds _).2⟩
      · rw [← h]; rfl
      · rw [← h]; rfl

/-- Witness for C2 at the spec's own scenario: surface rectangle
left 0, top 0, width 200, height 100; mouse-down at client (100, 50)
emits exactly (0.5, 0.5), which the theorem certifies to be the clamped
normalized coordinates, in bounds. -/
theorem c2_emitted_position_clamped_witness :
    handle_move (some ⟨0, 0, 200, 100⟩) (PEvent.mouse 100 50) =
      some (1/2, 1/2) ∧
    ((0 ≤ ((1 : ℚ)/2, (1 : ℚ)/2).1 ∧ ((1 : ℚ)/2, (1 : ℚ)/2).1 ≤ 1 ∧
      0 ≤ ((1 : ℚ)/2, (1 : ℚ)/2).2 ∧ ((1 : ℚ)/2, (1 : ℚ)/2).2 ≤ 1) ∧
    ∃ rect cx cy, (some (⟨0, 0, 200, 100⟩ : Rect)) = some rect ∧
      clientCoords (PEvent.mouse 100 50) = some (cx, cy) ∧
      ((1 : ℚ)/2, (1 : ℚ)/2).1 =
        rustMax (rustMin ((cx - rect.left) / rect.width) 1) 0 ∧
      ((1 : ℚ)/2, (1 : ℚ)/2).2 =
        rustMax (rustMin ((cy - rect.top) / rect.height) 1) 0) :=
  ⟨by norm_num [handle_move, get_position, clientCoords, limit, rustMin, rustMax],
   c2_emitted_position_clamped (some ⟨0, 0, 200, 100⟩) (PEvent.mouse 100 50)
     ((1 : ℚ)/2, (1 : ℚ)/2)
     (by norm_num [handle_move, get_position, clientCoords, limit, rustMin, rustMax])⟩

/-- C8: malformed interaction events are ignored by `use_position`: when no
surface element is bound or mounted, neither `handle_move` nor `handle_start`
emits a position for any event, and when a touch event carries no first touch
point the event is likewise dropped (as is an event of an unrecognised kind);
every such path returns normally rather than failing. -/
theorem c8_malformed_events_ignored :
    (∀ e : PEvent, handle_move none e = none ∧ handle_start_emit none e = none) ∧
    (∀ rect : Rect,
      handle_move (some rect) (PEvent.touch []) = none ∧
      handle_start_emit (some rect) (PEvent.touch []) = none ∧
      handle_move (some rect) PEvent.other = none ∧
      handle_start_emit (some rect) PEvent.other = none) := by
  constructor
  · intro e
    exact ⟨rfl, rfl⟩
  · intro rect
    exact ⟨rfl, rfl, rfl, rfl⟩

/-- RGBA color value of the external csscolorparser collaborator: four
components, each nominally in [0,1], modelled over ℚ (the crate stores f32
fields `r`, `g`, `b`, `a`). -/
structure Color where
  r : ℚ
  g : ℚ
  b : ℚ
  a : ℚ
deriving Repr, DecidableEq

/-- Rust `as u8` cast applied to an f32, as used in the collaborator's
`to_rgba8`: truncation toward zero, saturating to [0, 255]. -/
def castU8 (q : ℚ) : Fin 256 :=
  ⟨min 255 (max 0 ⌊q⌋).toNat, by omega⟩

/-- Byte quadruple returned by `Color::to_rgba8` in the collaborator. -/
structure Rgba8 where
  r : Fin 256
  g : Fin 256
  b : Fin 256
  a : Fin 256
deriving Repr, DecidableEq

/-- Model of `Color::to_rgba8` from the csscolorparser collaborator:
each component is `(x * 255.0 + 0.5) as u8`. -/
def to_rgba8 (c : Color) : Rgba8 :=
  { r := castU8 (c.r * 255 + 1/2)
    g := castU8 (c.g * 255 + 1/2)
    b := castU8 (c.b * 255 + 1/2)
    a := castU8 (c.a * 255 + 1/2) }

/-- Lowercase hexadecimal digit character for a value below 16, as produced
by Rust's `{:02x}` formatting. -/
def hexDigitChar (n : Fin 16) : Char :=
  if n.val < 10 then Char.ofNat (48 + n.val) else Char.ofNat (87 + n.val)

/-- Two lowercase hexadecimal digit characters of a byte, as produced by
Rust's `{:02x}` formatting. -/
def byteHexChars (b : Fin 256) : List Char :=
  [hexDigitChar ⟨b.val / 16, by have := b.isLt; omega⟩,
   hexDigitChar ⟨b.val % 16, by omega⟩]

/-- Hex rendering of a byte quadruple as in the collaborator's
`to_hex_string`: a '#' followed by the three colour bytes in lowercase hex,
with the alpha byte appended exactly when it is below 255. -/
def hexStringOfBytes (q : Rgba8) : String :=
  if q.a.val < 255 then
    String.mk ('#' :: (byteHexChars q.r ++ byteHexChars q.g
      ++ byteHexChars q.b ++ byteHexChars q.a))
  else
    String.mk ('#' :: (byteHexChars q.r ++ byteHexChars q.g
      ++ byteHexChars q.b))

/-- Model of `Color::to_hex_string` from the csscolorparser collaborator:
the hex rendering of `to_rgba8`. -/
def to_hex_string (c : Color) : String := hexStringOfBytes (to_rgba8 c)

/-- Rust `str::replace("#", "")` as applied to the stored hex string on the
`prop:value` line of the hex input in `color_picker.rs`: every occurrence of
the single character '#' is removed. -/
def stripHash (s : String) : String :=
  String.mk (s.toList.filter (fun c => c != '#'))

/-- Accumulated decimal value of a digit-character list. -/
def digitsVal (cs : List Char) : ℕ :=
  cs.foldl (fun acc c => acc * 10 + (c.toNat - 48)) 0

/-- Model of Rust's `str::parse::<u8>()`: an optional leading '+', then at
least one ASCII digit, with the accumulated value required to fit in a u8
(values above 255 overflow to an error). -/
def parseU8 (s : String) : Option ℕ :=
  let ds := match s.toList with
    | '+' :: rest => rest
    | other => other
  if ds.isEmpty then none
  else if ds.all Char.isDigit then
    if digitsVal ds ≤ 255 then some (digitsVal ds) else none
  else none

/-- Outcome of one numeric-field `on:change` handler in `color_picker.rs`:
either a new Color is passed to `on_change`, or the handler returns without
emitting, or the handler aborts (the `todo!()` placeholder panics). -/
inductive FieldOutcome where
  | emit (c : Color)
  | noop
  | panicked
deriving Repr, DecidableEq

/-- Handler of the red numeric field in `color_picker.rs`: on a successful
u8 parse it sets `color.r = value / 255` and emits; on failure it executes
`todo!()`, which panics. -/
def redFieldChange (current : Color) (s : String) : FieldOutcome :=
  match parseU8 s with
  | some v => .emit { current with r := (v : ℚ) / 255 }
  | none => .panicked

/-- Handler of the green numeric field in `color_picker.rs`: on a successful
u8 parse it sets `color.g = value / 255` and emits; on failure it executes
`todo!()`, which panics. -/
def greenFieldChange (current : Color) (s : String) : FieldOutcome :=
  match parseU8 s with
  | some v => .emit { current with g := (v : ℚ) / 255 }
  | none => .panicked

/-- Handler of the blue numeric field in `color_picker.rs`: on a successful
u8 parse it sets `color.b = value / 255` and emits; on failure it does
nothing. -/
def blueFieldChange (current : Color) (s : String) : FieldOutcome :=
  match parseU8 s with
  | some v => .emit { current with b := (v : ℚ) / 255 }
  | none => .noop

/-- Handler of the alpha numeric field in `color_picker.rs`: on a successful
u8 parse it sets `color.a = value / 255` and emits; on failure it does
nothing. -/
def alphaFieldChange (current : Color) (s : String) : FieldOutcome :=
  match parseU8 s with
  | some v => .emit { current with a := (v : ℚ) / 255 }
  | none => .noop

/-- ASCII lowercasing of one character, as Rust's `to_lowercase` acts on the
ASCII colour syntax relevant here. -/
def asciiToLower (c : Char) : Char :=
  if 65 ≤ c.toNat ∧ c.toNat ≤ 90 then Char.ofNat (c.toNat + 32) else c

/-- Leading and trailing whitespace removal, as Rust's `str::trim`. -/
def trimChars (cs : List Char) : List Char :=
  ((cs.dropWhile Char.isWhitespace).reverse.dropWhile Char.isWhitespace).reverse

/-- Hexadecimal value of one lowercase character. -/
def hexVal (c : Char) : Option (Fin 16) :=
  if h : 48 ≤ c.toNat ∧ c.toNat ≤ 57 then some ⟨c.toNat - 48, by omega⟩
  else if h2 : 97 ≤ c.toNat ∧ c.toNat ≤ 102 then some ⟨c.toNat - 87, by omega⟩
  else none

/-- Byte value of two hexadecimal digit characters. -/
def hexPair (c1 c2 : Char) : Option (Fin 256) := do
  let hi ← hexVal c1
  let lo ← hexVal c2
  pure ⟨hi.val * 16 + lo.val, by have := hi.isLt; have := lo.isLt; omega⟩

/-- Model of the collaborator's `parse_hex`: 3-, 4-, 6- or 8-digit hex
bodies; 3/4-digit forms duplicate each nibble (value 17·d); a missing alpha
defaults to 1. -/
def parse_hex (cs : List Char) : Option Color :=
  match cs with
  | [r1, r2, g1, g2, b1, b2] => do
    let r ← hexPair r1 r2
    let g ← hexPair g1 g2
    let b ← hexPair b1 b2
    pure ⟨(r.val : ℚ)/255, (g.val : ℚ)/255, (b.val : ℚ)/255, 1⟩
  | [r1, r2, g1, g2, b1, b2, a1, a2] => do
    let r ← hexPair r1 r2
    let g ← hexPair g1 g2
    let b ← hexPair b1 b2
    let a ← hexPair a1 a2
    pure ⟨(r.val : ℚ)/255, (g.val : ℚ)/255, (b.val : ℚ)/255, (a.val : ℚ)/255⟩
  | [r1, g1, b1] => do
    let r ← hexVal r1
    let g ← hexVal g1
    let b ← hexVal b1
    pure ⟨(r.val * 17 : ℚ)/255, (g.val * 17 : ℚ)/255, (b.val * 17 : ℚ)/255, 1⟩
  | [r1, g1, b1, a1] => do
    let r ← hexVal r1
    let g ← hexVal g1
    let b ← hexVal b1
    let a ← hexVal a1
    pure ⟨(r.val * 17 : ℚ)/255, (g.val * 17 : ℚ)/255, (b.val * 17 : ℚ)/255,
      (a.val * 17 : ℚ)/255⟩
  | _ => none

/-- Fragment of the collaborator's named-colour table (the crate ships the
full CSS list; the entries here suffice for the properties at issue). -/
def namedColor (cs : List Char) : Option (ℕ × ℕ × ℕ) :=
  if cs = ("red".toList) then some (255, 0, 0)
  else if cs = ("green".toList) then some (0, 128, 0)
  else if cs = ("blue".toList) then some (0, 0, 255)
  else if cs = ("black".toList) then some (0, 0, 0)
  else if cs = ("white".toList) then some (255, 255, 255)
  else if cs = ("tomato".toList) then some (255, 99, 71)
  else none

/-- Consumption of a literal leading pattern: `dropLead pat cs` returns the
remainder of `cs` after `pat`, or nothing when `pat` does not lead `cs`. -/
def dropLead : List Char → List Char → Option (List Char)
  | [], cs => some cs
  | _ :: _, [] => none
  | p :: ps, c :: cs => if c = p then dropLead ps cs else none

/-- Splitting a character list at commas. -/
def splitComma : List Char → List (List Char)
  | [] => [[]]
  | c :: cs =>
    if c = ',' then [] :: splitComma cs
    else
      match splitComma cs with
      | [] => [[c]]
      | g :: gs => (c :: g) :: gs

/-- Decimal digit-string value as a natural number, or nothing when the
characters are not one-or-more digits. -/
def parseNatDigits (cs : List Char) : Option ℕ :=
  if cs.isEmpty then none
  else if cs.all Char.isDigit then some (digitsVal cs) else none

/-- Colour channel from an integer `rgb()` argument, as the collaborator
computes it: the value is divided by 255 and clamped into [0,1] (folded here
into a natural-number clamp at 255). -/
def chanOf255 (v : ℕ) : ℚ := ((min v 255 : ℕ) : ℚ) / 255

/-- Alpha fraction from an `rgba()` argument, restricted to simple
nonnegative decimals (`"1"`, `"0.5"`, `".25"`); the collaborator clamps the
parsed value into [0,1], folded here into the integer-part test. -/
def parseFracChars (cs : List Char) : Option ℚ :=
  let ip := cs.takeWhile (fun c => c != '.')
  match cs.dropWhile (fun c => c != '.') with
  | [] =>
    if ip.isEmpty then none
    else if ip.all Char.isDigit then
      some (if 1 ≤ digitsVal ip then 1 else 0)
    else none
  | _ :: fp =>
    if ip.isEmpty && fp.isEmpty then none
    else if ip.all Char.isDigit && fp.all Char.isDigit then
      some (if 1 ≤ digitsVal ip then 1
            else (digitsVal fp : ℚ) / ((10 : ℚ) ^ fp.length))
    else none

/-- Model of the collaborator's functional `rgb()`/`rgba()` bodies: three
comma-separated integer channels with an optional fourth alpha argument. -/
def parseRgbFunc (inner : List Char) : Option Color :=
  match (splitComma inner).map trimChars with
  | [rs, gs, bs] => do
    let r ← parseNatDigits rs
    let g ← parseNatDigits gs
    let b ← parseNatDigits bs
    pure ⟨chanOf255 r, chanOf255 g, chanOf255 b, 1⟩
  | [rs, gs, bs, aCs] => do
    let r ← parseNatDigits rs
    let g ← parseNatDigits gs
    let b ← parseNatDigits bs
    let a ← parseFracChars aCs
    pure ⟨chanOf255 r, chanOf255 g, chanOf255 b, a⟩
  | _ => none

/-- Model of the external csscolorparser collaborator's `Color::from_str`
parser, restricted to the syntactic families relevant here. The input is
trimmed and lowercased; then, in the crate's order: the keyword
`transparent`, the named-colour table, '#'-prefixed hex, the functional
`rgb()`/`rgba()` forms, and finally bare hex without '#'. Every other string
fails to parse. -/
def parseColor (input : String) : Option Color :=
  let cs := (trimChars input.toList).map asciiToLower
  if cs = ("transparent".toList) then some ⟨0, 0, 0, 0⟩
  else
    match namedColor cs with
    | some (r, g, b) => some ⟨(r : ℚ)/255, (g : ℚ)/255, (b : ℚ)/255, 1⟩
    | none =>
      match cs with
      | '#' :: rest => parse_hex rest
      | _ =>
        if cs.getLast? = some ')' then
          match dropLead ("rgba(".toList) cs with
          | some inner => parseRgbFunc inner.dropLast
          | none =>
            match dropLead ("rgb(".toList) cs with
            | some inner => parseRgbFunc inner.dropLast
            | none => none
        else parse_hex cs

/-- Handler shared by `on:blur` and `on:change` of the hex text input in
`color_picker.rs`: the entered string is run through the collaborator's full
CSS colour parser (`event_target_value(&ev).parse::<Color>()`); on success
the parsed Color itself is passed to `on_change`, on failure nothing
happens. The current colour is not consulted at all. -/
def hexFieldChange (current : Color) (s : String) : Option Color :=
  parseColor s

/-- HSVA quadruple as used with the collaborator's `to_hsva`/`from_hsva`. -/
structure Hsva where
  h : ℚ
  s : ℚ
  v : ℚ
  a : ℚ
deriving Repr, DecidableEq

/-- Argument quadruple that the `Saturation on_change` closure in
`color_picker.rs` passes to `Color::from_hsva`, for current HSVA `hsva` and
normalized position `(left, top)`. The source performs two in-place array
updates (`hsva[2] = 1.0 - top; hsva[1] = left`) followed by two independent
floor tests (`if hsva[2] <= 0.0`, `if hsva[1] <= 0.0`), which is recorded
here as one record update. -/
def saturationAreaHsva (hsva : Hsva) (left top : ℚ) : Hsva :=
  { h := hsva.h
    s := if left ≤ 0 then 1/1000 else left
    v := if 1 - top ≤ 0 then 1/1000 else 1 - top
    a := hsva.a }

/-- HSLA quadruple as returned by the collaborator's `to_hsla`. -/
structure Hsla where
  h : ℚ
  s : ℚ
  l : ℚ
  a : ℚ
deriving Repr, DecidableEq

/-- Rust `as u16` cast applied to an f32, as on the hue line of the
projection effect: truncation toward zero, saturating to [0, 65535]. -/
def ratToU16 (q : ℚ) : ℕ := min 65535 ⌊q⌋.toNat

/-- Rust `f32::round`: rounding to the nearest integer, ties away from
zero. -/
def rustRound (q : ℚ) : ℤ := if 0 ≤ q then ⌊q + 1/2⌋ else -⌊-q + 1/2⌋

/-- Derived projection set written to the CSS variables by the reactive
effect in `color_picker.rs` (lines 162–187). String formatting of plain
numeric interpolations (`format!("calc({}% - 6px)")` and the rgba css
string) is kept as the interpolated numeric values, since Rust float
`Display` is outside the scope of this embedding. -/
structure Projections where
  hue : String
  red : String
  green : String
  blue : String
  hexVar : String
  alphaVar : String
  rgbaParts : Fin 256 × Fin 256 × Fin 256 × ℚ
  huePointerPct : ℚ
  alphaPointerPct : ℚ
  satPointerTopPct : ℚ
  satPointerLeftPct : ℚ
deriving Repr, DecidableEq

/-- Body of the projection effect in `color_picker.rs`, as a function of the
values the effect reads from the collaborator: `hsla = color.to_hsla()`,
`rgba = color.to_rgba8()` (with `alpha = rgba[3]`), `hex =
color.to_hex_string()` and `hsva = color.to_hsva()`. Line by line:
`set_hue((hsla[0] as u16).to_string())`; the three channel strings; the hex
string as-is; the alpha byte string; the rgba css parts with alpha as
`alpha as f32 / 255.0`; `set_hue_pointer(round(hsla[0]*100/360) %)`;
`set_alpha_pointer(round(alpha/255*100) %)`;
`set_saturation_pointer_top(-(hsva[2]*100) + 100 %)` (not rounded);
`set_saturation_pointer_left(round(hsva[1]*100) %)`. -/
def mkProjections (hsla : Hsla) (rgba : Rgba8) (hexStr : String)
    (hsva : Hsva) : Projections :=
  { hue := toString (ratToU16 hsla.h)
    red := toString rgba.r.val
    green := toString rgba.g.val
    blue := toString rgba.b.val
    hexVar := hexStr
    alphaVar := toString rgba.a.val
    rgbaParts := (rgba.r, rgba.g, rgba.b, (rgba.a.val : ℚ) / 255)
    huePointerPct := ((rustRound (hsla.h * 100 / 360) : ℤ) : ℚ)
    alphaPointerPct := ((rustRound ((rgba.a.val : ℚ) / 255 * 100) : ℤ) : ℚ)
    satPointerTopPct := -(hsva.v * 100) + 100
    satPointerLeftPct := ((rustRound (hsva.s * 100) : ℤ) : ℚ) }

/-- C9: ending a drag session twice in a row is idempotent: once end-handling
has deactivated the session (`dragging := false`, effect re-run leaves no
installed listeners), a second end-handling call removes no further listeners
and changes no observable state; `handle_end` itself is also idempotent. -/
theorem c9_end_drag_idempotent (s : DragState) :
    endDrag (endDrag s) = endDrag s ∧
    (endDrag s).listeners = [] ∧
    handle_end (handle_end s) = handle_end s := by
  refine ⟨?_, rfl, rfl⟩
  simp [endDrag, runDragEffect, handle_end]

/-- C1 (code evaluated at the failing inputs): a parse failure in the red or
green numeric-field handler executes the aborting `todo!()` placeholder — a
panic — instead of degrading to a no-op, while the blue and alpha handlers do
degrade to a no-op on the same inputs; so a fatal condition does exist on the
red/green parse-failure paths, contradicting the claim. -/
theorem c1_red_green_parse_failure_panics :
    redFieldChange ⟨0, 0, 0, 1⟩ "300" = FieldOutcome.panicked ∧
    greenFieldChange ⟨0, 0, 0, 1⟩ "abc" = FieldOutcome.panicked ∧
    blueFieldChange ⟨0, 0, 0, 1⟩ "300" = FieldOutcome.noop ∧
    alphaFieldChange ⟨0, 0, 0, 1⟩ "300" = FieldOutcome.noop := by
  refine ⟨rfl, rfl, rfl, rfl⟩

/-- Counterexample to C3 as stated: at normalized position
`left = 1/2048, top = 0` (a position the tracker can emit, exactly
representable in f32/f64), the saturation passed on by the saturation-area
handler is `1/2048` itself — the floor branch only replaces values ≤ 0 — and
not `max(left, 0.001) = 0.001` as the claim's formula requires. -/
theorem c3_saturation_not_max_counterexample :
    (saturationAreaHsva ⟨0, 1, 1, 1⟩ (1/2048) 0).s ≠
      max ((1 : ℚ)/2048) (1/1000) := by
  have h1 : (saturationAreaHsva ⟨0, 1, 1, 1⟩ (1/2048) 0).s = 1/2048 := by
    norm_num [saturationAreaHsva]
  have h2 : max ((1 : ℚ)/2048) (1/1000) = 1/1000 :=
    max_eq_right (by norm_num)
  rw [h1, h2]
  norm_num

/-- C3 amended: for every normalized position `(left, top)` in [0,1]×[0,1]
the quadruple handed to `from_hsva` by the saturation-area handler keeps hue
and alpha unchanged and sets `s = left` and `v = 1 - top`, except that a
value ≤ 0 is replaced by the floor 0.001 (values strictly between 0 and
0.001 are kept as they are, not raised to 0.001); both resulting components
are therefore strictly positive, and a click at `(0, 1)` yields
`s = 0.001, v = 0.001`, never 0. -/
theorem c3_saturation_floor (hsva : Hsva) (left top : ℚ)
    (h0 : 0 ≤ left) (h1 : left ≤ 1) (h2 : 0 ≤ top) (h3 : top ≤ 1) :
    (saturationAreaHsva hsva left top).h = hsva.h ∧
    (saturationAreaHsva hsva left top).a = hsva.a ∧
    (saturationAreaHsva hsva left top).s =
      (if left ≤ 0 then 1/1000 else left) ∧
    (saturationAreaHsva hsva left top).v =
      (if 1 - top ≤ 0 then 1/1000 else 1 - top) ∧
    0 < (saturationAreaHsva hsva left top).s ∧
    0 < (saturationAreaHsva hsva left top).v := by
  refine ⟨rfl, rfl, rfl, rfl, ?_, ?_⟩
  · show 0 < (if left ≤ 0 then (1 : ℚ)/1000 else left)
    split
    · norm_num
    · next hn => exact lt_of_not_le hn
  · show 0 < (if 1 - top ≤ 0 then (1 : ℚ)/1000 else 1 - top)
    split
    · norm_num
    · next hn => exact lt_of_not_le hn

/-- Witness for C3 amended at the spec's scenario, a click at normalized
`(0, 1)` (bottom-left): the resulting quadruple has `s = 0.001` and
`v = 0.001`, and both are strictly positive. -/
theorem c3_saturation_floor_witness :
    (saturationAreaHsva ⟨0, 1, 1, 1⟩ 0 1).h = (0 : ℚ) ∧
    (saturationAreaHsva ⟨0, 1, 1, 1⟩ 0 1).a = (1 : ℚ) ∧
    (saturationAreaHsva ⟨0, 1, 1, 1⟩ 0 1).s = 1/1000 ∧
    (saturationAreaHsva ⟨0, 1, 1, 1⟩ 0 1).v = 1/1000 ∧
    0 < (saturationAreaHsva ⟨0, 1, 1, 1⟩ 0 1).s ∧
    0 < (saturationAreaHsva ⟨0, 1, 1, 1⟩ 0 1).v := by
  have h := c3_saturation_floor ⟨0, 1, 1, 1⟩ 0 1 (by norm_num) (by norm_num)
    (by norm_num) (by norm_num)
  simpa using h

/-- Evaluation helper: the rgba bytes of pure red with alpha 128/255. -/
theorem to_rgba8_red_half_alpha :
    to_rgba8 ⟨1, 0, 0, 128/255⟩ = ⟨⟨255, by omega⟩, ⟨0, by omega⟩,
      ⟨0, by omega⟩, ⟨128, by omega⟩⟩ := by
  norm_num [to_rgba8, castU8, Fin.ext_iff]
  decide

/-- Evaluation helper: the rgba bytes of opaque pure red. -/
theorem to_rgba8_red_opaque :
    to_rgba8 ⟨1, 0, 0, 1⟩ = ⟨⟨255, by omega⟩, ⟨0, by omega⟩,
      ⟨0, by omega⟩, ⟨255, by omega⟩⟩ := by
  norm_num [to_rgba8, castU8, Fin.ext_iff]

/-- Counterexample to C4 as stated: with prior colour green at alpha 1/2,
entering "ff0000" in the hex field emits the parsed colour, whose alpha is
the parse default 1 — not the prior alpha 1/2. -/
theorem c4_hex_edit_alpha_counterexample :
    hexFieldChange ⟨0, 1, 0, 1/2⟩ ("ff0000") = some ⟨1, 0, 0, 1⟩ ∧
    (⟨1, 0, 0, 1⟩ : Color).a ≠ (⟨0, 1, 0, 1/2⟩ : Color).a := by
  constructor
  · have h : hexFieldChange ⟨0, 1, 0, 1/2⟩ ("ff0000") =
        some ⟨((255 : ℕ) : ℚ)/255, ((0 : ℕ) : ℚ)/255, ((0 : ℕ) : ℚ)/255, 1⟩ := rfl
    rw [h]
    norm_num
  · norm_num

/-- C4 amended: entering "ff0000" in the hex field emits, for every prior
colour, the colour parsed from the string itself — RGB bytes (255, 0, 0)
and alpha 1, the parser's default for a 6-digit hex body — so the prior
alpha is replaced rather than preserved. -/
theorem c4_hex_ff0000_emits_opaque_red (prior : Color) :
    hexFieldChange prior ("ff0000") = some ⟨1, 0, 0, 1⟩ ∧
    to_rgba8 ⟨1, 0, 0, 1⟩ = ⟨⟨255, by omega⟩, ⟨0, by omega⟩,
      ⟨0, by omega⟩, ⟨255, by omega⟩⟩ := by
  constructor
  · have h : hexFieldChange prior ("ff0000") =
        some ⟨((255 : ℕ) : ℚ)/255, ((0 : ℕ) : ℚ)/255, ((0 : ℕ) : ℚ)/255, 1⟩ := rfl
    rw [h]
    norm_num
  · exact to_rgba8_red_opaque

/-- Helper: a hex digit character is never '#' (boolean form for filter
computations). -/
theorem hexDigitChar_ne_hash_beq :
    ∀ n : Fin 16, (hexDigitChar n != '#') = true := by
  decide

/-- Helper: '#' is never a hex digit character. -/
theorem hash_ne_hexDigitChar : ∀ n : Fin 16, '#' ≠ hexDigitChar n := by
  decide

/-- Helper: character list of a stripped string. -/
theorem toList_stripHash (s : String) :
    (stripHash s).toList = s.toList.filter (fun c => c != '#') := rfl

/-- Helper: character list of a packed string. -/
theorem toList_mk (l : List Char) : (String.mk l).toList = l := rfl

/-- Helper: string length as character-list length. -/
theorem length_toList (s : String) : s.length = s.toList.length := rfl

/-- Counterexample to C5 as stated: for pure red at alpha 128/255 the
displayed hex projection (the stored `to_hex_string` with '#' removed) is
the 8-digit string "ff000080" — the alpha byte is included, not dropped,
whenever the alpha byte is below 255. -/
theorem c5_hex_projection_counterexample :
    stripHash (mkProjections ⟨0, 1, 1/2, 1/2⟩ (to_rgba8 ⟨1, 0, 0, 128/255⟩)
        (to_hex_string ⟨1, 0, 0, 128/255⟩) ⟨0, 1, 1, 1/2⟩).hexVar =
      ("ff000080") ∧
    ("ff000080" : String).length ≠ 6 := by
  constructor
  · show stripHash (to_hex_string ⟨1, 0, 0, 128/255⟩) = _
    show stripHash (hexStringOfBytes (to_rgba8 ⟨1, 0, 0, 128/255⟩)) = _
    rw [to_rgba8_red_half_alpha]
    decide
  · decide

/-- C5 amended: for every colour the displayed hex projection is the
collaborator's `to_hex_string` with every '#' removed: always '#'-free, it
has exactly 6 hex digits when the alpha byte is 255 and otherwise 8 hex
digits whose final pair encodes the alpha byte, so alpha information is
included — not dropped — whenever the alpha byte is below 255. -/
theorem c5_hex_display (c : Color) (hsla : Hsla) (hsva : Hsva) :
    (mkProjections hsla (to_rgba8 c) (to_hex_string c) hsva).hexVar =
      to_hex_string c ∧
    (stripHash (to_hex_string c)).toList =
      byteHexChars (to_rgba8 c).r ++ byteHexChars (to_rgba8 c).g ++
      byteHexChars (to_rgba8 c).b ++
      (if (to_rgba8 c).a.val < 255 then byteHexChars (to_rgba8 c).a else []) ∧
    (stripHash (to_hex_string c)).length =
      (if (to_rgba8 c).a.val < 255 then 8 else 6) ∧
    '#' ∉ (stripHash (to_hex_string c)).toList := by
  have ht : (stripHash (to_hex_string c)).toList =
      byteHexChars (to_rgba8 c).r ++ byteHexChars (to_rgba8 c).g ++
      byteHexChars (to_rgba8 c).b ++
      (if (to_rgba8 c).a.val < 255 then byteHexChars (to_rgba8 c).a
       else []) := by
    rw [toList_stripHash]
    show ((hexStringOfBytes (to_rgba8 c)).toList.filter (fun ch => ch != '#')) = _
    unfold hexStringOfBytes
    by_cases hA : (to_rgba8 c).a.val < 255
    · simp [hA, toList_mk, byteHexChars, hexDigitChar_ne_hash_beq]
    · simp [hA, toList_mk, byteHexChars, hexDigitChar_ne_hash_beq]
  refine ⟨rfl, ht, ?_, ?_⟩
  · rw [length_toList, ht]
    by_cases hA : (to_rgba8 c).a.val < 255
    · simp [hA, byteHexChars]
    · simp [hA, byteHexChars]
  · rw [ht]
    by_cases hA : (to_rgba8 c).a.val < 255
    · simp [hA, byteHexChars, hash_ne_hexDigitChar]
    · simp [hA, byteHexChars, hash_ne_hexDigitChar]

/-- Counterexample to C6 as stated: at HSL hue 190.5° (an attainable
fractional hue) the hue projection is "190" — the `as u16` cast truncates —
while rounding to the nearest integer would give "191". -/
theorem c6_hue_truncation_counterexample :
    (mkProjections ⟨381/2, 1, 1/2, 1⟩ ⟨0, 0, 0, 255⟩ ("") ⟨0, 1, 1, 1⟩).hue ≠
      toString (round ((381 : ℚ)/2)) := by
  have h1 : (mkProjections ⟨381/2, 1, 1/2, 1⟩ ⟨0, 0, 0, 255⟩ ("")
      ⟨0, 1, 1, 1⟩).hue = toString (ratToU16 (381/2)) := rfl
  have h2 : ratToU16 ((381 : ℚ)/2) = 190 := by
    norm_num [ratToU16]
    decide
  have h3 : round ((381 : ℚ)/2) = 191 := by
    norm_num [round_eq]
  rw [h1, h2, h3]
  decide

/-- C6 amended: for every HSL hue in [0, 360) the hue projection is the
integer string of the TRUNCATED hue degrees (`as u16` discards the
fractional part; it does not round to nearest). -/
theorem c6_hue_projection_truncates (hsla : Hsla) (rgba : Rgba8)
    (hexStr : String) (hsva : Hsva) (h0 : 0 ≤ hsla.h) (h1 : hsla.h < 360) :
    (mkProjections hsla rgba hexStr hsva).hue = toString ⌊hsla.h⌋.toNat := by
  show toString (ratToU16 hsla.h) = _
  unfold ratToU16
  congr 1
  have hf : ⌊hsla.h⌋ < 360 := by
    rw [Int.floor_lt]
    exact_mod_cast h1
  omega

/-- Witness for C6 amended at hue 190.5°: the projection is the truncation
"190". -/
theorem c6_hue_projection_truncates_witness :
    (mkProjections ⟨381/2, 1, 1/2, 1⟩ ⟨0, 0, 0, 255⟩ ("") ⟨0, 1, 1, 1⟩).hue =
      toString (⌊(381 : ℚ)/2⌋).toNat :=
  c6_hue_projection_truncates ⟨381/2, 1, 1/2, 1⟩ ⟨0, 0, 0, 255⟩ ("")
    ⟨0, 1, 1, 1⟩ (by norm_num) (by norm_num)

/-- Counterexample to C7 as stated: at HSV value v = 1/8 the saturation
pointer top percentage is 87.5 — the source applies no rounding on this
line — while the claim's formula round(-(v·100) + 100) gives 88. -/
theorem c7_sat_top_unrounded_counterexample :
    (mkProjections ⟨0, 1, 1/2, 1⟩ ⟨0, 0, 0, 255⟩ ("")
        ⟨0, 1, 1/8, 1⟩).satPointerTopPct ≠
      ((round (-((1 : ℚ)/8 * 100) + 100) : ℤ) : ℚ) := by
  have h1 : (mkProjections ⟨0, 1, 1/2, 1⟩ ⟨0, 0, 0, 255⟩ ("")
      ⟨0, 1, 1/8, 1⟩).satPointerTopPct = -((1 : ℚ)/8 * 100) + 100 := rfl
  have h2 : round (-((1 : ℚ)/8 * 100) + 100) = 88 := by
    norm_num [round_eq]
  rw [h1, h2]
  norm_num

/-- C7 amended: the saturation pointer top percentage is the raw value
-(v·100) + 100 with no rounding applied (in contrast to the left
percentage, which is rounded); it agrees with the claim's rounded formula
exactly when v·100 is an integer. -/
theorem c7_sat_pointer_top_unrounded (hsla : Hsla) (rgba : Rgba8)
    (hexStr : String) (hsva : Hsva) :
    (mkProjections hsla rgba hexStr hsva).satPointerTopPct =
      -(hsva.v * 100) + 100 ∧
    (mkProjections hsla rgba hexStr hsva).satPointerLeftPct =
      ((rustRound (hsva.s * 100) : ℤ) : ℚ) ∧
    ((mkProjections hsla rgba hexStr hsva).satPointerTopPct =
        ((round (-(hsva.v * 100) + 100) : ℤ) : ℚ) ↔
      ∃ n : ℤ, hsva.v * 100 = (n : ℚ)) := by
  refine ⟨rfl, rfl, ?_⟩
  show -(hsva.v * 100) + 100 = ((round (-(hsva.v * 100) + 100) : ℤ) : ℚ) ↔ _
  constructor
  · intro h
    refine ⟨100 - round (-(hsva.v * 100) + 100), ?_⟩
    have : -(hsva.v * 100) = ((round (-(hsva.v * 100) + 100) : ℤ) : ℚ) - 100 := by
      linarith
    push_cast
    linarith
  · rintro ⟨n, hn⟩
    have hx : -(hsva.v * 100) + 100 = ((100 - n : ℤ) : ℚ) := by
      push_cast
      linarith
    rw [hx, round_intCast]

/-- C10: the hex text field's `on:blur`/`on:change` handler runs the entered
string through the collaborator's general CSS colour parser and, whenever
the parse succeeds, emits exactly the parsed colour — it is not restricted
to 6-digit hex: an 8-digit hex with alpha, `rgb()`/`rgba()` syntax and a
named colour all parse and are emitted (and an unparsable string is not),
so a hex-field edit can set the alpha channel when the entered string
encodes one. -/
theorem c10_hex_field_accepts_general_css :
    (∀ (prior : Color) (s : String) (c : Color),
      parseColor s = some c → hexFieldChange prior s = some c) ∧
    parseColor ("red") = some ⟨1, 0, 0, 1⟩ ∧
    parseColor ("rgb(0, 255, 0)") = some ⟨0, 1, 0, 1⟩ ∧
    parseColor ("rgba(255, 0, 0, 0.5)") = some ⟨1, 0, 0, 1/2⟩ ∧
    parseColor ("ff000080") = some ⟨1, 0, 0, 128/255⟩ ∧
    parseColor ("zzzzzz") = none := by
  refine ⟨fun prior s c h => h, ?_, ?_, ?_, ?_, rfl⟩
  · have h : parseColor ("red") =
        some ⟨((255 : ℕ) : ℚ)/255, ((0 : ℕ) : ℚ)/255, ((0 : ℕ) : ℚ)/255, 1⟩ := rfl
    rw [h]
    norm_num
  · have h : parseColor ("rgb(0, 255, 0)") =
        some ⟨((0 : ℕ) : ℚ)/255, ((255 : ℕ) : ℚ)/255, ((0 : ℕ) : ℚ)/255, 1⟩ := rfl
    rw [h]
    norm_num
  · have h : parseColor ("rgba(255, 0, 0, 0.5)") =
        some ⟨((255 : ℕ) : ℚ)/255, ((0 : ℕ) : ℚ)/255, ((0 : ℕ) : ℚ)/255,
          ((5 : ℕ) : ℚ) / ((10 : ℚ) ^ (1 : ℕ))⟩ := rfl
    rw [h]
    norm_num
  · have h : parseColor ("ff000080") =
        some ⟨((255 : ℕ) : ℚ)/255, ((0 : ℕ) : ℚ)/255, ((0 : ℕ) : ℚ)/255,
          ((128 : ℕ) : ℚ)/255⟩ := rfl
    rw [h]
    norm_num

/-- Witness for C10 at the alpha-encoding 8-digit hex "ff000080": it parses
to pure red at alpha 128/255, and the hex-field handler emits exactly that
colour (changing the alpha away from the prior opaque colour). -/
theorem c10_hex_field_accepts_general_css_witness :
    parseColor ("ff000080") = some ⟨1, 0, 0, 128/255⟩ ∧
    hexFieldChange ⟨0, 0, 0, 1⟩ ("ff000080") = some ⟨1, 0, 0, 128/255⟩ := by
  have hp : parseColor ("ff000080") = some ⟨1, 0, 0, 128/255⟩ := by
    have h : parseColor ("ff000080") =
        some ⟨((255 : ℕ) : ℚ)/255, ((0 : ℕ) : ℚ)/255, ((0 : ℕ) : ℚ)/255,
          ((128 : ℕ) : ℚ)/255⟩ := rfl
    rw [h]
    norm_num
  exact ⟨hp, c10_hex_field_accepts_general_css.1 ⟨0, 0, 0, 1⟩ ("ff000080")
    ⟨1, 0, 0, 128/255⟩ hp⟩

end LeptosColor
